import Mathlib

/-!
# Verification of the event-system resilience core

Shallow embedding of `src/services/index.js`: the circuit breaker
(`record` / `allowRequest`), the retry executor with exponential
backoff (`postWithRetry`), the bounded fan-out worker pool of
`GET /getEventsByUserId/:id`, and the `POST /addEvent` orchestration.

Times and durations are integers (milliseconds, as produced by
`Date.now()`); random jitter values are passed in explicitly, with
their JavaScript ranges (`Math.floor(Math.random() * 250)` and
`Math.floor(Math.random() * 50)`) stated as hypotheses where needed.
-/

namespace EventSystem

/-- The circuit-breaker state enum: `'CLOSED' | 'OPEN' | 'HALF_OPEN'`. -/
inductive CBState where
  | CLOSED
  | OPEN
  | HALF_OPEN
deriving DecidableEq, Repr

/-- The mutable closure variables of the `CB` module:
`state`, `failures`, `nextAttemptAt`, `cooldownMs`. -/
structure Breaker where
  state : CBState
  failures : List Int
  nextAttemptAt : Int
  cooldownMs : Int
deriving DecidableEq, Repr

/-- The breaker configuration read from the environment:
`CB_WINDOW_MS` (default 30000), `CB_FAILURES` (default 3),
`CB_COOLDOWN_MS` (default 15000). -/
structure CBConfig where
  windowMs : Int
  maxFailures : Nat
  baseCooldownMs : Int
deriving Repr

/-- The initial breaker: `state = 'CLOSED'`, `failures = []`,
`nextAttemptAt = 0`, `cooldownMs = CB_COOLDOWN_MS`. -/
def Breaker.init (cfg : CBConfig) : Breaker :=
  { state := .CLOSED
    failures := []
    nextAttemptAt := 0
    cooldownMs := cfg.baseCooldownMs }

/-- `CB.record(success)` at time `t` with breaker jitter
`j = Math.floor(Math.random() * 250)`:

```js
function record(success) {
  const t = now();
  failures = failures.filter(ts => t - ts < windowMs);
  if (!success) failures.push(t);
  if (state === 'CLOSED' && failures.length >= maxFailures) {
    state = 'OPEN';
    nextAttemptAt = t + cooldownMs;
  } else if (state === 'HALF_OPEN') {
    if (success) {
      state = 'CLOSED';
      failures = [];
      cooldownMs = Number(process.env.CB_COOLDOWN_MS ?? 15000);
    } else {
      state = 'OPEN';
      cooldownMs = Math.min(cooldownMs * 2, 120000) + Math.floor(Math.random() * 250);
      nextAttemptAt = t + cooldownMs;
    }
  }
}
```
-/
def record (cfg : CBConfig) (b : Breaker) (t : Int) (success : Bool) (j : Int) :
    Breaker :=
  let fs0 := b.failures.filter (fun ts => t - ts < cfg.windowMs)
  let fs := if success then fs0 else fs0 ++ [t]
  if b.state = CBState.CLOSED ∧ cfg.maxFailures ≤ fs.length then
    { b with failures := fs, state := .OPEN, nextAttemptAt := t + b.cooldownMs }
  else if b.state = CBState.HALF_OPEN then
    if success then
      { b with
        failures := []
        state := .CLOSED
        cooldownMs := cfg.baseCooldownMs }
    else
      let cd := min (b.cooldownMs * 2) 120000 + j
      { b with
        failures := fs
        state := .OPEN
        cooldownMs := cd
        nextAttemptAt := t + cd }
  else
    { b with failures := fs }

/-- The record returned by `allowRequest`:
`{ allowed, probe, retryAfter }`. -/
structure AllowResult where
  allowed : Bool
  probe : Bool
  retryAfter : Int
deriving DecidableEq, Repr

/-- `Math.ceil(d / 1000)` for a nonnegative integer number of
milliseconds `d` (the only way the code applies it). -/
def ceilSeconds (d : Int) : Int :=
  ((d.toNat + 999) / 1000 : Nat)

/-- `CB.allowRequest()` at time `t`; returns the result record together
with the breaker after the call (it mutates `state` on the
`OPEN → HALF_OPEN` transition):

```js
function allowRequest() {
  const t = now();
  if (state === 'OPEN') {
    if (t >= nextAttemptAt) {
      state = 'HALF_OPEN';
      return { allowed: true, probe: true, retryAfter: 0 };
    }
    return { allowed: false, probe: false, retryAfter: Math.ceil((nextAttemptAt - t) / 1000) };
  }
  return { allowed: true, probe: false, retryAfter: 0 };
}
```
-/
def allowRequest (b : Breaker) (t : Int) : AllowResult × Breaker :=
  if b.state = CBState.OPEN then
    if b.nextAttemptAt ≤ t then
      ({ allowed := true, probe := true, retryAfter := 0 },
       { b with state := .HALF_OPEN })
    else
      ({ allowed := false
         probe := false
         retryAfter := ceilSeconds (b.nextAttemptAt - t) }, b)
  else
    ({ allowed := true, probe := false, retryAfter := 0 }, b)

/-- The timestamps surviving eviction at time `t`. -/
def windowSurvivors (cfg : CBConfig) (b : Breaker) (t : Int) : List Int :=
  b.failures.filter (fun ts => t - ts < cfg.windowMs)

/-- From CLOSED, `record success` keeps the evicted-then-extended failure
list and opens exactly when it reaches the threshold. -/
theorem record_closed_eq (cfg : CBConfig) (b : Breaker) (t : Int) (s : Bool)
    (j : Int) (h : b.state = .CLOSED) :
    record cfg b t s j =
      (let fs := if s then windowSurvivors cfg b t
                 else windowSurvivors cfg b t ++ [t]
       if cfg.maxFailures ≤ fs.length then
         { b with failures := fs, state := .OPEN
                  nextAttemptAt := t + b.cooldownMs }
       else { b with failures := fs }) := by
  unfold record windowSurvivors
  simp only [h, true_and, reduceCtorEq, if_false]

/-- C1: while CLOSED, `record` transitions the breaker to OPEN if and only
if, after evicting timestamps older than the window, the count of failure
timestamps within the trailing window (including the one just recorded on
failure) reaches `failureThreshold`; a `record(true)` call never resets the
window count directly (it only evicts), and every timestamp surviving a
`record` call is either the fresh one or one of the old ones still inside
the window. -/
theorem record_closed_opens_iff_window_count (cfg : CBConfig) (b : Breaker)
    (t : Int) (s : Bool) (j : Int) (h : b.state = .CLOSED) :
    ((record cfg b t s j).state = .OPEN ↔
      cfg.maxFailures ≤
        (windowSurvivors cfg b t).length + (if s then 0 else 1)) ∧
    (s = true → (record cfg b t s j).failures = windowSurvivors cfg b t) ∧
    (∀ ts ∈ (record cfg b t s j).failures,
      ts = t ∨ (ts ∈ b.failures ∧ t - ts < cfg.windowMs)) := by
  rw [record_closed_eq cfg b t s j h]
  have hmem : ∀ ts ∈ windowSurvivors cfg b t,
      ts ∈ b.failures ∧ t - ts < cfg.windowMs := by
    intro ts hts
    simpa [windowSurvivors, List.mem_filter] using hts
  cases s with
  | true =>
    simp only [if_true, Nat.add_zero]
    split
    · next hc =>
      refine ⟨by simpa using hc, fun _ => rfl, ?_⟩
      intro ts hts
      exact Or.inr (hmem ts hts)
    · next hc =>
      refine ⟨?_, fun _ => rfl, ?_⟩
      · constructor
        · intro habs
          rw [show ({ b with failures := windowSurvivors cfg b t } :
              Breaker).state = b.state from rfl, h] at habs
          exact absurd habs (by decide)
        · intro hle
          exact absurd hle hc
      · intro ts hts
        exact Or.inr (hmem ts hts)
  | false =>
    simp only [Bool.false_eq_true, if_false, List.length_append,
      List.length_singleton]
    have hmem2 : ∀ ts ∈ windowSurvivors cfg b t ++ [t],
        ts = t ∨ (ts ∈ b.failures ∧ t - ts < cfg.windowMs) := by
      intro ts hts
      rcases List.mem_append.mp hts with h1 | h2
      · exact Or.inr (hmem ts h1)
      · exact Or.inl (List.mem_singleton.mp h2)
    split
    · next hc =>
      exact ⟨by simpa using hc, by simp, hmem2⟩
    · next hc =>
      refine ⟨?_, by simp, hmem2⟩
      constructor
      · intro habs
        rw [show ({ b with failures := windowSurvivors cfg b t ++ [t] } :
            Breaker).state = b.state from rfl, h] at habs
        exact absurd habs (by decide)
      · intro hle
        exact absurd hle hc

/-! ### Basic `allowRequest` shapes -/

theorem allowRequest_open_denied (b : Breaker) (t : Int)
    (h : b.state = .OPEN) (ht : t < b.nextAttemptAt) :
    allowRequest b t =
      ({ allowed := false
         probe := false
         retryAfter := ceilSeconds (b.nextAttemptAt - t) }, b) := by
  unfold allowRequest
  rw [if_pos h, if_neg (by omega)]

theorem allowRequest_open_probe (b : Breaker) (t : Int)
    (h : b.state = .OPEN) (ht : b.nextAttemptAt ≤ t) :
    allowRequest b t =
      ({ allowed := true, probe := true, retryAfter := 0 },
       { b with state := .HALF_OPEN }) := by
  unfold allowRequest
  rw [if_pos h, if_pos ht]

theorem allowRequest_not_open (b : Breaker) (t : Int)
    (h : b.state ≠ .OPEN) :
    allowRequest b t = ({ allowed := true, probe := false, retryAfter := 0 }, b) := by
  unfold allowRequest
  rw [if_neg h]

theorem ceilSeconds_mono {d1 d2 : Int} (h : d1 ≤ d2) :
    ceilSeconds d1 ≤ ceilSeconds d2 := by
  unfold ceilSeconds
  have : d1.toNat ≤ d2.toNat := Int.toNat_le_toNat h
  exact_mod_cast Nat.div_le_div_right (by omega)

/-- C2 (amended): while OPEN, every `allowRequest` strictly before
`nextAttemptAt` is denied with `retryAfter = ceil((nextAttemptAt - now)/1s)`
and leaves the breaker unchanged; across two such denied checks the later
`retryAfter` is at most (not necessarily strictly below) the earlier one;
and any `allowRequest` at or after `nextAttemptAt` transitions the state to
HALF_OPEN and is admitted with `probe = true`. -/
theorem open_admission_denied_then_probe (b : Breaker) (t t1 t2 : Int)
    (h : b.state = .OPEN) :
    (t < b.nextAttemptAt →
      allowRequest b t =
        ({ allowed := false
           probe := false
           retryAfter := ceilSeconds (b.nextAttemptAt - t) }, b)) ∧
    (t1 ≤ t2 → t2 < b.nextAttemptAt →
      (allowRequest b t2).1.retryAfter ≤ (allowRequest b t1).1.retryAfter) ∧
    (b.nextAttemptAt ≤ t →
      allowRequest b t =
        ({ allowed := true, probe := true, retryAfter := 0 },
         { b with state := .HALF_OPEN })) := by
  refine ⟨fun ht => allowRequest_open_denied b t h ht, ?_,
    fun ht => allowRequest_open_probe b t h ht⟩
  intro h12 h2
  rw [allowRequest_open_denied b t1 h (by omega),
    allowRequest_open_denied b t2 h h2]
  exact ceilSeconds_mono (by omega)

/-- C2 counterexample: two denied checks of the same OPEN breaker
(`nextAttemptAt = 2000`) at `t = 500` and later `t = 800` return the same
`retryAfter` (2 seconds), so `retryAfter` is not strictly decreasing. -/
theorem open_retryAfter_not_strictly_decreasing_cex :
    (allowRequest ⟨.OPEN, [], 2000, 15000⟩ 500).1.allowed = false ∧
    (allowRequest ⟨.OPEN, [], 2000, 15000⟩ 800).1.allowed = false ∧
    ¬ ((allowRequest ⟨.OPEN, [], 2000, 15000⟩ 800).1.retryAfter <
        (allowRequest ⟨.OPEN, [], 2000, 15000⟩ 500).1.retryAfter) := by
  decide

/-- From HALF_OPEN, `record` ignores the CLOSED-threshold branch. -/
theorem record_halfOpen_true_eq (cfg : CBConfig) (b : Breaker) (t : Int)
    (j : Int) (h : b.state = .HALF_OPEN) :
    record cfg b t true j =
      { b with failures := [], state := .CLOSED
               cooldownMs := cfg.baseCooldownMs } := by
  unfold record
  rw [if_neg (by simp [h]), if_pos h]
  simp

theorem record_halfOpen_false_eq (cfg : CBConfig) (b : Breaker) (t : Int)
    (j : Int) (h : b.state = .HALF_OPEN) :
    record cfg b t false j =
      { b with
        failures := windowSurvivors cfg b t ++ [t]
        state := .OPEN
        cooldownMs := min (b.cooldownMs * 2) 120000 + j
        nextAttemptAt := t + (min (b.cooldownMs * 2) 120000 + j) } := by
  unfold record windowSurvivors
  rw [if_neg (by simp [h]), if_pos h]
  simp

/-- C3: from HALF_OPEN, `record(true)` closes the breaker, clears the
failure history and resets the cooldown to `baseCooldown` (leaving
`nextAttemptAt` alone); `record(false)` reopens it with
`cooldown = min(previous * 2, maxCooldown) + jitter` (jitter nonnegative)
and `nextAttemptAt = now + cooldown`. -/
theorem halfOpen_probe_outcome (cfg : CBConfig) (b : Breaker) (t : Int)
    (j : Int) (h : b.state = .HALF_OPEN) (hj : 0 ≤ j) :
    ((record cfg b t true j).state = .CLOSED ∧
     (record cfg b t true j).failures = [] ∧
     (record cfg b t true j).cooldownMs = cfg.baseCooldownMs) ∧
    ((record cfg b t false j).state = .OPEN ∧
     (record cfg b t false j).cooldownMs =
        min (b.cooldownMs * 2) 120000 + j ∧
     min (b.cooldownMs * 2) 120000 ≤ (record cfg b t false j).cooldownMs ∧
     (record cfg b t false j).nextAttemptAt =
        t + (record cfg b t false j).cooldownMs) := by
  rw [record_halfOpen_true_eq cfg b t j h, record_halfOpen_false_eq cfg b t j h]
  refine ⟨⟨rfl, rfl, rfl⟩, rfl, rfl, ?_, rfl⟩
  show min (b.cooldownMs * 2) 120000 ≤ min (b.cooldownMs * 2) 120000 + j
  omega

/-- From OPEN, `record` only updates the failure list. -/
theorem record_open_eq (cfg : CBConfig) (b : Breaker) (t : Int) (s : Bool)
    (j : Int) (h : b.state = .OPEN) :
    record cfg b t s j =
      { b with failures := if s then windowSurvivors cfg b t
                           else windowSurvivors cfg b t ++ [t] } := by
  unfold record windowSurvivors
  rw [if_neg (by simp [h]), if_neg (by simp [h])]

/-- The default configuration from the environment fallbacks:
`CB_WINDOW_MS = 30000`, `CB_FAILURES = 3`, `CB_COOLDOWN_MS = 15000`. -/
def defaultCfg : CBConfig := ⟨30000, 3, 15000⟩

/-- A concrete reachable history under the default configuration: three
recorded failures open the breaker, then four probe cycles in a row fail
(breaker jitters 0, 0, 0 and finally 249). -/
def escalatedBreaker : Breaker :=
  let cfg := defaultCfg
  let b1 := record cfg (Breaker.init cfg) 0 false 0
  let b2 := record cfg b1 1 false 0
  let b3 := record cfg b2 2 false 0
  let b5 := record cfg (allowRequest b3 15002).2 15002 false 0
  let b7 := record cfg (allowRequest b5 45002).2 45002 false 0
  let b9 := record cfg (allowRequest b7 105002).2 105002 false 0
  record cfg (allowRequest b9 225002).2 225002 false 249

/-- C4 counterexample: along a reachable history (three failures, then four
failed probes whose last jitter is 249 < 250) the cooldown reaches
120249 ms, exceeding the 120000 ms cap, and the immediately preceding
cooldown was 120000, so the "at least twice the previous cooldown ignoring
jitter" part fails on the same step. -/
theorem cooldown_exceeds_max_cex :
    escalatedBreaker.state = .OPEN ∧
    120000 < escalatedBreaker.cooldownMs ∧
    escalatedBreaker.cooldownMs = 120249 := by decide

/-- C4 (amended): `record` resets the cooldown to `baseCooldown` on every
transition into CLOSED and touches it in no state but HALF_OPEN; a failed
probe sets it to `min(previous * 2, maxCooldown) + jitter`, which is at
least the previous cooldown whenever that was between 0 and `maxCooldown`, at
least twice the previous whenever twice the previous is at most
`maxCooldown`, and at most `maxCooldown + 249` (the jitter bound). -/
theorem cooldown_evolution (cfg : CBConfig) (b : Breaker) (t : Int)
    (s : Bool) (j : Int) (hj : 0 ≤ j ∧ j ≤ 249) :
    (b.state ≠ .CLOSED → (record cfg b t s j).state = .CLOSED →
      (record cfg b t s j).cooldownMs = cfg.baseCooldownMs) ∧
    (b.state ≠ .HALF_OPEN → (record cfg b t s j).cooldownMs = b.cooldownMs) ∧
    (b.state = .HALF_OPEN →
      (record cfg b t false j).cooldownMs =
          min (b.cooldownMs * 2) 120000 + j ∧
      (0 ≤ b.cooldownMs → b.cooldownMs ≤ 120000 →
        b.cooldownMs ≤ (record cfg b t false j).cooldownMs) ∧
      (b.cooldownMs * 2 ≤ 120000 →
        b.cooldownMs * 2 ≤ (record cfg b t false j).cooldownMs) ∧
      (record cfg b t false j).cooldownMs ≤ 120000 + 249) := by
  refine ⟨?_, ?_, ?_⟩
  · intro hne hcl
    cases hb : b.state with
    | CLOSED => exact absurd hb hne
    | OPEN =>
      rw [record_open_eq cfg b t s j hb] at hcl
      simp [hb] at hcl
    | HALF_OPEN =>
      cases s with
      | true => rw [record_halfOpen_true_eq cfg b t j hb]
      | false =>
        rw [record_halfOpen_false_eq cfg b t j hb] at hcl
        simp at hcl
  · intro hne
    cases hb : b.state with
    | CLOSED =>
      rw [record_closed_eq cfg b t s j hb]
      simp only
      split <;> split <;> rfl
    | OPEN => rw [record_open_eq cfg b t s j hb]
    | HALF_OPEN => exact absurd hb hne
  · intro hb
    rw [record_halfOpen_false_eq cfg b t j hb]
    refine ⟨rfl, ?_, ?_, ?_⟩
    · intro hc0 hc
      show b.cooldownMs ≤ min (b.cooldownMs * 2) 120000 + j
      omega
    · intro hc
      show b.cooldownMs * 2 ≤ min (b.cooldownMs * 2) 120000 + j
      omega
    · show min (b.cooldownMs * 2) 120000 + j ≤ 120000 + 249
      omega

/-- C5 (amended): `allowRequest` never changes `failureTimestamps`,
`nextAttemptAt` or `cooldown`, and changes `state` only on the
`OPEN → HALF_OPEN` transition (when called at or after `nextAttemptAt`
while OPEN); `record` remains the sole mutator of the other three fields. -/
theorem allowRequest_frame (b : Breaker) (t : Int) :
    (allowRequest b t).2.failures = b.failures ∧
    (allowRequest b t).2.nextAttemptAt = b.nextAttemptAt ∧
    (allowRequest b t).2.cooldownMs = b.cooldownMs ∧
    ((allowRequest b t).2.state = b.state ∨
     (b.state = .OPEN ∧ b.nextAttemptAt ≤ t ∧
      (allowRequest b t).2.state = .HALF_OPEN)) := by
  unfold allowRequest
  split
  · next hop =>
    split
    · next ht => exact ⟨rfl, rfl, rfl, Or.inr ⟨hop, ht, rfl⟩⟩
    · exact ⟨rfl, rfl, rfl, Or.inl rfl⟩
  · exact ⟨rfl, rfl, rfl, Or.inl rfl⟩

/-- C5 counterexample: an `allowRequest` call on an OPEN breaker whose
`nextAttemptAt` has elapsed does mutate the breaker (it flips `state` to
HALF_OPEN), so `record` is not the sole mutator of the four fields. -/
theorem allowRequest_mutates_state_cex :
    ¬ ((allowRequest ⟨.OPEN, [], 5, 15000⟩ 5).2 =
        (⟨.OPEN, [], 5, 15000⟩ : Breaker)) := by decide

/-! ### Retry executor (`postWithRetry`)

An attempt's upstream response is modelled by its HTTP status code
(`st a` for attempt `a`); `resp.ok` is a status in `[200, 300)`, and the
backoff jitter of attempt `a` is `j a = Math.floor(Math.random() * 50)`.
The run returns the loop's outcome — `Except.ok a` for "return the
response of attempt `a`", `Except.error (some s)` for
"throw Error(Upstream s)" and `Except.error none` for the bare
`Upstream error` fallback — paired with the list of backoff waits
performed, in order. -/

/-- One pass of the `for (let attempt = 0; attempt < max; attempt++)` loop
body, with `fuel` iterations left and `last` the pending `lastErr`:

```js
for (let attempt = 0; attempt < max; attempt++) {
  const resp = await fetch(url, ...);
  if (resp.ok) return resp;
  if (resp.status >= 500) {
    lastErr = new Error(`Upstream [status]`);
    const backoff = baseMs * 2 ** attempt + Math.floor(Math.random() * 50);
    await new Promise(r => setTimeout(r, backoff));
    continue;
  }
  throw new Error(`Upstream [status]`);
}
throw lastErr ?? new Error('Upstream error');
```
-/
def postWithRetryRun (st j : Nat → Nat) (baseMs attempt fuel : Nat)
    (last : Option Nat) : Except (Option Nat) Nat × List Nat :=
  match fuel with
  | 0 => (Except.error last, [])
  | fuel + 1 =>
    if 200 ≤ st attempt ∧ st attempt < 300 then
      (Except.ok attempt, [])
    else if 500 ≤ st attempt then
      let w := baseMs * 2 ^ attempt + j attempt
      let r := postWithRetryRun st j baseMs (attempt + 1) fuel (some (st attempt))
      (r.1, w :: r.2)
    else
      (Except.error (some (st attempt)), [])

/-- `postWithRetry(url, body, max, baseMs)`: run the loop from attempt 0
with `max` iterations and no `lastErr`. -/
def postWithRetry (st j : Nat → Nat) (baseMs maxAttempts : Nat) :
    Except (Option Nat) Nat × List Nat :=
  postWithRetryRun st j baseMs 0 maxAttempts none

theorem postWithRetryRun_ok (st j : Nat → Nat) (baseMs attempt fuel : Nat)
    (last : Option Nat) (h : 200 ≤ st attempt ∧ st attempt < 300) :
    postWithRetryRun st j baseMs attempt (fuel + 1) last =
      (Except.ok attempt, []) := by
  unfold postWithRetryRun
  rw [if_pos h]

theorem postWithRetryRun_retryable (st j : Nat → Nat)
    (baseMs attempt fuel : Nat) (last : Option Nat) (h : 500 ≤ st attempt) :
    postWithRetryRun st j baseMs attempt (fuel + 1) last =
      ((postWithRetryRun st j baseMs (attempt + 1) fuel (some (st attempt))).1,
       (baseMs * 2 ^ attempt + j attempt) ::
         (postWithRetryRun st j baseMs (attempt + 1) fuel (some (st attempt))).2) := by
  conv_lhs => rw [postWithRetryRun]
  rw [if_neg (by omega), if_pos h]

theorem postWithRetryRun_fatal (st j : Nat → Nat) (baseMs attempt fuel : Nat)
    (last : Option Nat) (hok : ¬ (200 ≤ st attempt ∧ st attempt < 300))
    (hr : st attempt < 500) :
    postWithRetryRun st j baseMs attempt (fuel + 1) last =
      (Except.error (some (st attempt)), []) := by
  unfold postWithRetryRun
  rw [if_neg hok, if_neg (by omega)]

theorem cons_range_map {α : Type} (g : Nat → α) (a n : Nat) :
    g a :: (List.range n).map (fun i => g (a + 1 + i)) =
      (List.range (n + 1)).map (fun i => g (a + i)) := by
  rw [List.range_succ_eq_map, List.map_cons, List.map_map, List.cons.injEq]
  refine ⟨by simp, List.map_congr_left ?_⟩
  intro i _
  simp only [Function.comp_apply]
  congr 1
  omega

/-- When every attempt in the remaining budget is retryable (5xx), the run
throws the last 5xx error and performs one backoff wait per attempt —
including one after the final attempt. -/
theorem postWithRetryRun_all_retryable (st j : Nat → Nat) (baseMs : Nat) :
    ∀ n attempt last,
      (∀ i, i < n + 1 → 500 ≤ st (attempt + i)) →
      postWithRetryRun st j baseMs attempt (n + 1) last =
        (Except.error (some (st (attempt + n))),
         (List.range (n + 1)).map
           (fun i => baseMs * 2 ^ (attempt + i) + j (attempt + i))) := by
  intro n
  induction n with
  | zero =>
    intro attempt last hall
    have h0 : 500 ≤ st attempt := by simpa using hall 0 (by omega)
    rw [postWithRetryRun_retryable st j baseMs attempt 0 last h0]
    simp [postWithRetryRun, List.range_succ]
  | succ m ih =>
    intro attempt last hall
    have h0 : 500 ≤ st attempt := by simpa using hall 0 (by omega)
    have hall' : ∀ i, i < m + 1 → 500 ≤ st (attempt + 1 + i) := by
      intro i hi
      have := hall (i + 1) (by omega)
      have harg : attempt + (i + 1) = attempt + 1 + i := by omega
      rwa [harg] at this
    rw [postWithRetryRun_retryable st j baseMs attempt (m + 1) last h0,
      ih (attempt + 1) (some (st attempt)) hall']
    have harg : attempt + 1 + m = attempt + (m + 1) := by omega
    rw [harg]
    simp only [Prod.mk.injEq, eq_self_iff_true, true_and]
    exact cons_range_map (fun k => baseMs * 2 ^ k + j k) attempt (m + 1)

/-- Fuel-subtraction form of `postWithRetryRun_ok`, convenient with
numeral fuels. -/
theorem postWithRetryRun_ok' (st j : Nat → Nat) (baseMs attempt fuel : Nat)
    (last : Option Nat) (hf : 1 ≤ fuel)
    (h : 200 ≤ st attempt ∧ st attempt < 300) :
    postWithRetryRun st j baseMs attempt fuel last = (Except.ok attempt, []) := by
  obtain ⟨f, rfl⟩ : ∃ f, fuel = f + 1 := ⟨fuel - 1, by omega⟩
  exact postWithRetryRun_ok st j baseMs attempt f last h

/-- Fuel-subtraction form of `postWithRetryRun_retryable`. -/
theorem postWithRetryRun_retryable' (st j : Nat → Nat)
    (baseMs attempt fuel : Nat) (last : Option Nat) (hf : 1 ≤ fuel)
    (h : 500 ≤ st attempt) :
    postWithRetryRun st j baseMs attempt fuel last =
      ((postWithRetryRun st j baseMs (attempt + 1) (fuel - 1)
          (some (st attempt))).1,
       (baseMs * 2 ^ attempt + j attempt) ::
         (postWithRetryRun st j baseMs (attempt + 1) (fuel - 1)
           (some (st attempt))).2) := by
  obtain ⟨f, rfl⟩ : ∃ f, fuel = f + 1 := ⟨fuel - 1, by omega⟩
  simpa using postWithRetryRun_retryable st j baseMs attempt f last h

/-- A run whose first `k` attempts are retryable and whose attempt `k` is a
non-retryable failure throws that attempt's error at once, with one backoff
wait per preceding retryable attempt and none for attempt `k` or beyond. -/
theorem postWithRetryRun_fatal_after_retryables (st j : Nat → Nat) (baseMs : Nat) :
    ∀ k fuel attempt last, k < fuel →
      (∀ i, i < k → 500 ≤ st (attempt + i)) →
      ¬ (200 ≤ st (attempt + k) ∧ st (attempt + k) < 300) →
      st (attempt + k) < 500 →
      postWithRetryRun st j baseMs attempt fuel last =
        (Except.error (some (st (attempt + k))),
         (List.range k).map
           (fun i => baseMs * 2 ^ (attempt + i) + j (attempt + i))) := by
  intro k
  induction k with
  | zero =>
    intro fuel attempt last hk _ hok hr
    obtain ⟨f, rfl⟩ : ∃ f, fuel = f + 1 := ⟨fuel - 1, by omega⟩
    rw [postWithRetryRun_fatal st j baseMs attempt f last
      (by simpa using hok) (by simpa using hr)]
    simp
  | succ m ih =>
    intro fuel attempt last hk hpre hok hr
    obtain ⟨f, rfl⟩ : ∃ f, fuel = f + 1 := ⟨fuel - 1, by omega⟩
    have h0 : 500 ≤ st attempt := by simpa using hpre 0 (by omega)
    have harg : attempt + (m + 1) = attempt + 1 + m := by omega
    rw [harg] at hok hr
    have hpre' : ∀ i, i < m → 500 ≤ st (attempt + 1 + i) := by
      intro i hi
      have := hpre (i + 1) (by omega)
      have h1 : attempt + (i + 1) = attempt + 1 + i := by omega
      rwa [h1] at this
    rw [postWithRetryRun_retryable st j baseMs attempt f last h0,
      ih f (attempt + 1) (some (st attempt)) (by omega) hpre' hok hr]
    rw [show attempt + 1 + m = attempt + (m + 1) from by omega]
    simp only [Prod.mk.injEq, eq_self_iff_true, true_and]
    exact cons_range_map (fun x => baseMs * 2 ^ x + j x) attempt m

/-- C6 (amended): if all `maxAttempts` attempts yield retryable (5xx)
failures, the executor fails carrying the last retryable error and performs
one backoff wait per retryable failure — `maxAttempts` waits in total,
including one after the final attempt; if the first `k` attempts are
retryable and attempt `k` yields a non-retryable failure (non-ok status
below 500), the executor fails immediately with that original error,
performing no backoff wait for it and consuming none of the remaining
attempts. -/
theorem postWithRetry_failure_modes (st j : Nat → Nat)
    (baseMs maxAttempts k : Nat) :
    (1 ≤ maxAttempts → (∀ i, i < maxAttempts → 500 ≤ st i) →
      (postWithRetry st j baseMs maxAttempts).1 =
        Except.error (some (st (maxAttempts - 1))) ∧
      (postWithRetry st j baseMs maxAttempts).2 =
        (List.range maxAttempts).map (fun i => baseMs * 2 ^ i + j i)) ∧
    (k < maxAttempts → (∀ i, i < k → 500 ≤ st i) →
      ¬ (200 ≤ st k ∧ st k < 300) → st k < 500 →
      (postWithRetry st j baseMs maxAttempts).1 =
        Except.error (some (st k)) ∧
      (postWithRetry st j baseMs maxAttempts).2 =
        (List.range k).map (fun i => baseMs * 2 ^ i + j i)) := by
  constructor
  · intro hmax hall
    obtain ⟨n, rfl⟩ : ∃ n, maxAttempts = n + 1 := ⟨maxAttempts - 1, by omega⟩
    unfold postWithRetry
    rw [postWithRetryRun_all_retryable st j baseMs n 0 none
      (by simpa using hall)]
    constructor <;> simp
  · intro hk hpre hok hr
    unfold postWithRetry
    rw [postWithRetryRun_fatal_after_retryables st j baseMs k maxAttempts 0 none
      hk (by simpa using hpre) (by simpa using hok) (by simpa using hr)]
    constructor <;> simp

/-- C6 counterexample: with `maxAttempts = 3`, base 200 and zero jitter,
three straight 500 responses make the executor perform 3 backoff waits
(200, 400 and 800 ms — one after the final attempt), not
`maxAttempts - 1 = 2`. -/
theorem retry_waits_after_final_attempt_cex :
    (postWithRetry (fun _ => 500) (fun _ => 0) 200 3).2 = [200, 400, 800] ∧
    ¬ ((postWithRetry (fun _ => 500) (fun _ => 0) 200 3).2.length = 3 - 1) := by
  decide

/-- C7: with `maxAttempts = 3`, retryable (5xx) failures on attempts 0 and
1 and success on attempt 2, `postWithRetry` returns attempt 2's response
and performs exactly two backoff waits, `base * 2^0 + jitter0` then
`base * 2^1 + jitter1`, each jitter nonnegative and below 50 ms. -/
theorem retry_succeeds_on_third_attempt (st j : Nat → Nat) (baseMs : Nat)
    (h0 : 500 ≤ st 0) (h1 : 500 ≤ st 1)
    (h2 : 200 ≤ st 2 ∧ st 2 < 300) (hj : ∀ a, j a < 50) :
    (postWithRetry st j baseMs 3).1 = Except.ok 2 ∧
    (postWithRetry st j baseMs 3).2 =
      [baseMs * 2 ^ 0 + j 0, baseMs * 2 ^ 1 + j 1] ∧
    baseMs * 2 ^ 0 ≤ baseMs * 2 ^ 0 + j 0 ∧
    baseMs * 2 ^ 0 + j 0 < baseMs * 2 ^ 0 + 50 ∧
    baseMs * 2 ^ 1 ≤ baseMs * 2 ^ 1 + j 1 ∧
    baseMs * 2 ^ 1 + j 1 < baseMs * 2 ^ 1 + 50 := by
  unfold postWithRetry
  rw [postWithRetryRun_retryable' st j baseMs 0 3 none (by norm_num) h0]
  norm_num
  rw [postWithRetryRun_retryable' st j baseMs 1 2 (some (st 0))
    (by norm_num) h1]
  norm_num
  rw [postWithRetryRun_ok' st j baseMs 2 1 (some (st 1)) (by norm_num) h2]
  exact ⟨rfl, rfl, hj 0, hj 1⟩

/-! ### Breaker call traces -/

/-- A sequence of `allowRequest` calls at the given times, with no
intervening `record`; returns the list of results and the final breaker. -/
def allowTrace (b : Breaker) (ts : List Int) : List AllowResult × Breaker :=
  match ts with
  | [] => ([], b)
  | t :: rest =>
    let r := allowRequest b t
    let tl := allowTrace r.2 rest
    (r.1 :: tl.1, tl.2)

/-- C9: once the breaker is HALF_OPEN (i.e. just after the call that
performed the `OPEN → HALF_OPEN` transition and returned `probe = true`),
every further `allowRequest` before the next `record` is admitted with
`probe = false` and leaves the breaker untouched — so at most one call
returns `probe = true` in that span, and HALF_OPEN admits unlimited
additional non-probe requests; moreover `probe = true` is only ever
returned from an OPEN pre-state. -/
theorem halfOpen_admits_without_probe (b : Breaker) (ts : List Int)
    (h : b.state = .HALF_OPEN) :
    (allowTrace b ts).2 = b ∧
    (∀ r ∈ (allowTrace b ts).1,
      r = { allowed := true, probe := false, retryAfter := 0 }) ∧
    (∀ (b' : Breaker) (t' : Int),
      (allowRequest b' t').1.probe = true → b'.state = .OPEN) := by
  have key : ∀ us : List Int, (allowTrace b us).2 = b ∧
      ∀ r ∈ (allowTrace b us).1,
        r = { allowed := true, probe := false, retryAfter := 0 } := by
    intro us
    induction us with
    | nil => exact ⟨rfl, by simp [allowTrace]⟩
    | cons t rest ih =>
      have hstep := allowRequest_not_open b t (by simp [h])
      simp only [allowTrace, hstep]
      refine ⟨ih.1, ?_⟩
      intro r hr
      rcases List.mem_cons.mp hr with h1 | h2
      · exact h1
      · exact ih.2 r h2
  refine ⟨(key ts).1, (key ts).2, ?_⟩
  intro b' t' hp
  by_cases hb : b'.state = CBState.OPEN
  · exact hb
  · rw [allowRequest_not_open b' t' hb] at hp
    simp at hp

/-! ### The `POST /addEvent` orchestration -/

/-- The response the `/addEvent` handler sends: HTTP status, the `success`
flag, the classified `reason` (when present) and the `Retry-After` header
(when present). -/
structure EventResponse where
  status : Nat
  success : Bool
  reason : Option String
  retryAfterHeader : Option Int
deriving DecidableEq, Repr

/-- The `POST /addEvent` handler: ask the breaker for admission at time
`t`; if denied, 503 `circuit_open` with `Retry-After`; otherwise run
`postWithRetry` (upstream statuses `st`, backoff jitters `j`) and on
success reply 200 and record a success, on any thrown error reply 503 with
reason `probe_failed` when the request was admitted as a probe and
`retry_exhausted` otherwise, recording a failure. `t2` is the time of the
`record` call and `jcb` the breaker jitter it draws. -/
def addEventHandler (cfg : CBConfig) (b : Breaker) (t t2 : Int)
    (st j : Nat → Nat) (baseMs maxAttempts : Nat) (jcb : Int) :
    EventResponse × Breaker :=
  let ar := allowRequest b t
  if ar.1.allowed = false then
    ({ status := 503
       success := false
       reason := some "circuit_open"
       retryAfterHeader := some ar.1.retryAfter }, ar.2)
  else
    match (postWithRetry st j baseMs maxAttempts).1 with
    | Except.ok _ =>
      ({ status := 200
         success := true
         reason := none
         retryAfterHeader := none }, record cfg ar.2 t2 true jcb)
    | Except.error _ =>
      ({ status := 503
         success := false
         reason := some (if ar.1.probe then "probe_failed"
                         else "retry_exhausted")
         retryAfterHeader := none }, record cfg ar.2 t2 false jcb)

/-- C10: an admitted request whose first attempt hits a non-retryable
upstream failure (non-ok status below 500) is answered 503 with reason
`probe_failed` when admitted as a probe and `retry_exhausted` otherwise —
exactly the reason an admitted request with genuinely exhausted retries
(`st'` all 5xx) receives, so the response body never distinguishes the two
cases. -/
theorem addEvent_nonretryable_reason (cfg : CBConfig) (b : Breaker)
    (t t2 : Int) (st st' j : Nat → Nat) (baseMs maxAttempts : Nat) (jcb : Int)
    (hallow : (allowRequest b t).1.allowed = true)
    (hok : ¬ (200 ≤ st 0 ∧ st 0 < 300)) (hr : st 0 < 500)
    (hmax : 1 ≤ maxAttempts) (hst' : ∀ i, i < maxAttempts → 500 ≤ st' i) :
    (addEventHandler cfg b t t2 st j baseMs maxAttempts jcb).1.status = 503 ∧
    (addEventHandler cfg b t t2 st j baseMs maxAttempts jcb).1.success
      = false ∧
    (addEventHandler cfg b t t2 st j baseMs maxAttempts jcb).1.reason =
      some (if (allowRequest b t).1.probe then "probe_failed"
            else "retry_exhausted") ∧
    (addEventHandler cfg b t t2 st' j baseMs maxAttempts jcb).1.reason =
      (addEventHandler cfg b t t2 st j baseMs maxAttempts jcb).1.reason := by
  have hfat : (postWithRetry st j baseMs maxAttempts).1 =
      Except.error (some (st 0)) := by
    unfold postWithRetry
    rw [postWithRetryRun_fatal_after_retryables st j baseMs 0 maxAttempts 0 none
      (by omega) (fun i hi => absurd hi (by omega))
      (by simpa using hok) (by simpa using hr)]
  have hex : (postWithRetry st' j baseMs maxAttempts).1 =
      Except.error (some (st' (maxAttempts - 1))) := by
    obtain ⟨n, rfl⟩ : ∃ n, maxAttempts = n + 1 := ⟨maxAttempts - 1, by omega⟩
    unfold postWithRetry
    rw [postWithRetryRun_all_retryable st' j baseMs n 0 none
      (by simpa using hst')]
    simp
  simp only [addEventHandler]
  have hcond : ¬ ((allowRequest b t).1.allowed = false) := by simp [hallow]
  rw [if_neg hcond, if_neg hcond, hfat, hex]
  exact ⟨rfl, rfl, rfl, rfl⟩

/-! ### Bounded fan-out executor (`GET /getEventsByUserId/:id`)

```js
const results = new Array(eventIds.length);
let cursor = 0;
async function worker() {
  while (cursor < eventIds.length) {
    const myIndex = cursor++;
    const evId = eventIds[myIndex];
    const resp = await fetch(`[base]/getEventById/[evId]`);
    if (!resp.ok) throw new Error(`Failed event [evId]`);
    results[myIndex] = await resp.json();
  }
}
const workers = Array.from({ length: Math.min(CONCURRENCY, eventIds.length) }, worker);
await Promise.all(workers);
```

Workers interleave only at `await` points, so a worker is observably in
one of three positions: at the top of its `while` loop, suspended at the
`fetch` of a claimed index, or returned. `cursor++` is atomic (it happens
between awaits). A schedule is the order in which the event loop resumes
workers; the all-tasks-succeed case is modelled by a total fetch function
`f`. -/

/-- The observable position of one fan-out worker. -/
inductive WState where
  | atLoop
  | fetching (i : Nat)
  | finished
deriving DecidableEq, Repr

/-- The per-request fan-out state: the shared `cursor`, the pre-sized
`results` array (`none` = still-empty slot) and the worker pool. -/
structure FanState (β : Type) where
  cursor : Nat
  results : List (Option β)
  workers : List WState
deriving DecidableEq, Repr

/-- Resume worker `w` once: at the loop head it either claims the next
index (`cursor++`) and suspends at its fetch, or returns if the cursor is
exhausted; at a fetch it stores the fetched value at its claimed index and
goes back to the loop head. -/
def wstep (f : α → β) (tasks : List α) (s : FanState β) (w : Nat) :
    FanState β :=
  match s.workers[w]? with
  | some WState.atLoop =>
    if s.cursor < tasks.length then
      { s with
        cursor := s.cursor + 1
        workers := s.workers.set w (WState.fetching s.cursor) }
    else
      { s with workers := s.workers.set w WState.finished }
  | some (WState.fetching i) =>
    { s with
      results := s.results.set i (tasks[i]?.map f)
      workers := s.workers.set w WState.atLoop }
  | _ => s

/-- Run a schedule (the event loop's resumption order). -/
def fanRun (f : α → β) (tasks : List α) (sched : List Nat)
    (s : FanState β) : FanState β :=
  match sched with
  | [] => s
  | w :: rest => fanRun f tasks rest (wstep f tasks s w)

/-- The initial fan-out state: cursor 0, `new Array(eventIds.length)`, and
`Math.min(CONCURRENCY, eventIds.length)` workers at their loop heads. -/
def fanInit (β : Type) (K : Nat) (tasks : List α) : FanState β :=
  { cursor := 0
    results := List.replicate tasks.length none
    workers := List.replicate (min K tasks.length) WState.atLoop }

/-- The inductive invariant of the fan-out pool: the results array keeps
its size; the cursor never passes the end; every claimed index is stored
or held by a fetching worker; unclaimed slots are empty; fetching workers
hold claimed indices; and a worker returns only once the cursor is
exhausted. -/
structure FanInv (f : α → β) (tasks : List α) (s : FanState β) : Prop where
  hlen : s.results.length = tasks.length
  hcur : s.cursor ≤ tasks.length
  hclaimed : ∀ i : Nat, i < s.cursor →
    s.results[i]? = some (tasks[i]?.map f) ∨
      ∃ w : Nat, s.workers[w]? = some (WState.fetching i)
  hunclaimed : ∀ i : Nat, s.cursor ≤ i → i < tasks.length →
    s.results[i]? = some none
  hfetch : ∀ w i : Nat,
    s.workers[w]? = some (WState.fetching i) → i < s.cursor
  hfin : ∀ w : Nat, s.workers[w]? = some WState.finished →
    s.cursor = tasks.length

theorem fanInv_init (f : α → β) (tasks : List α) (K : Nat) :
    FanInv f tasks (fanInit β K tasks) := by
  refine ⟨by simp [fanInit], by simp [fanInit], ?_, ?_, ?_, ?_⟩
  · intro i hi
    simp [fanInit] at hi
  · intro i _ hi
    simp [fanInit, List.getElem?_replicate, hi]
  · intro w i h
    simp only [fanInit, List.getElem?_replicate] at h
    split at h <;> simp_all
  · intro w h
    simp only [fanInit, List.getElem?_replicate] at h
    split at h <;> simp_all

theorem wstep_none (f : α → β) (tasks : List α) (s : FanState β) (w : Nat)
    (hw : s.workers[w]? = none) : wstep f tasks s w = s := by
  unfold wstep
  rw [hw]

theorem wstep_finished (f : α → β) (tasks : List α) (s : FanState β)
    (w : Nat) (hw : s.workers[w]? = some WState.finished) :
    wstep f tasks s w = s := by
  unfold wstep
  rw [hw]

theorem wstep_atLoop_claim (f : α → β) (tasks : List α) (s : FanState β)
    (w : Nat) (hw : s.workers[w]? = some WState.atLoop)
    (hc : s.cursor < tasks.length) :
    wstep f tasks s w =
      { s with
        cursor := s.cursor + 1
        workers := s.workers.set w (WState.fetching s.cursor) } := by
  unfold wstep
  rw [hw]
  dsimp only
  rw [if_pos hc]

theorem wstep_atLoop_done (f : α → β) (tasks : List α) (s : FanState β)
    (w : Nat) (hw : s.workers[w]? = some WState.atLoop)
    (hc : ¬ s.cursor < tasks.length) :
    wstep f tasks s w = { s with workers := s.workers.set w WState.finished } := by
  unfold wstep
  rw [hw]
  dsimp only
  rw [if_neg hc]

theorem wstep_fetching (f : α → β) (tasks : List α) (s : FanState β)
    (w i0 : Nat) (hw : s.workers[w]? = some (WState.fetching i0)) :
    wstep f tasks s w =
      { s with
        results := s.results.set i0 (tasks[i0]?.map f)
        workers := s.workers.set w WState.atLoop } := by
  unfold wstep
  rw [hw]

theorem fanInv_step (f : α → β) (tasks : List α) (s : FanState β) (w : Nat)
    (hs : FanInv f tasks s) : FanInv f tasks (wstep f tasks s w) := by
  cases hw : s.workers[w]? with
  | none => rw [wstep_none f tasks s w hw]; exact hs
  | some ws =>
    have hwlt : w < s.workers.length :=
      (List.getElem?_eq_some.mp hw).1
    cases ws with
    | atLoop =>
      by_cases hc : s.cursor < tasks.length
      · rw [wstep_atLoop_claim f tasks s w hw hc]
        refine ⟨hs.hlen, ?_, ?_, ?_, ?_, ?_⟩ <;> dsimp only
        · omega
        · intro i hi
          by_cases hi' : i < s.cursor
          · rcases hs.hclaimed i hi' with hst | ⟨w', hw'⟩
            · exact Or.inl hst
            · have hne : w ≠ w' := by
                intro he
                rw [← he, hw] at hw'
                simp at hw'
              exact Or.inr ⟨w', by rw [List.getElem?_set_ne hne]; exact hw'⟩
          · have hie : i = s.cursor := by omega
            subst hie
            exact Or.inr ⟨w, List.getElem?_set_eq_of_lt _ hwlt⟩
        · intro i h1 h2
          exact hs.hunclaimed i (by omega) h2
        · intro w' i h'
          by_cases hww : w = w'
          · subst hww
            rw [List.getElem?_set_eq_of_lt _ hwlt] at h'
            have : WState.fetching s.cursor = WState.fetching i :=
              Option.some_injective _ h'
            cases this
            omega
          · rw [List.getElem?_set_ne hww] at h'
            exact Nat.lt_succ_of_lt (hs.hfetch w' i h')
        · intro w' h'
          by_cases hww : w = w'
          · subst hww
            rw [List.getElem?_set_eq_of_lt _ hwlt] at h'
            simp at h'
          · rw [List.getElem?_set_ne hww] at h'
            have := hs.hfin w' h'
            omega
      · rw [wstep_atLoop_done f tasks s w hw hc]
        have hceq : s.cursor = tasks.length := by
          have := hs.hcur
          omega
        refine ⟨hs.hlen, hs.hcur, ?_, hs.hunclaimed, ?_, fun _ _ => hceq⟩
        · intro i hi
          rcases hs.hclaimed i hi with hst | ⟨w', hw'⟩
          · exact Or.inl hst
          · have hne : w ≠ w' := by
              intro he
              rw [← he, hw] at hw'
              simp at hw'
            exact Or.inr ⟨w', by rw [List.getElem?_set_ne hne]; exact hw'⟩
        · intro w' i h'
          by_cases hww : w = w'
          · subst hww
            rw [List.getElem?_set_eq_of_lt _ hwlt] at h'
            simp at h'
          · rw [List.getElem?_set_ne hww] at h'
            exact hs.hfetch w' i h'
    | fetching i0 =>
      rw [wstep_fetching f tasks s w i0 hw]
      have hi0 : i0 < s.cursor := hs.hfetch w i0 hw
      have hi0len : i0 < s.results.length := by
        rw [hs.hlen]
        have := hs.hcur
        omega
      refine ⟨by simpa using hs.hlen, hs.hcur, ?_, ?_, ?_, ?_⟩ <;> dsimp only
      · intro i hi
        by_cases hii : i = i0
        · subst hii
          exact Or.inl (List.getElem?_set_eq_of_lt _ hi0len)
        · rcases hs.hclaimed i hi with hst | ⟨w', hw'⟩
          · refine Or.inl ?_
            rw [List.getElem?_set_ne (fun he => hii he.symm)]
            exact hst
          · have hne : w ≠ w' := by
              intro he
              rw [← he, hw] at hw'
              have : WState.fetching i0 = WState.fetching i :=
                Option.some_injective _ hw'
              cases this
              exact hii rfl
            exact Or.inr ⟨w', by rw [List.getElem?_set_ne hne]; exact hw'⟩
      · intro i h1 h2
        rw [List.getElem?_set_ne (by omega : i0 ≠ i)]
        exact hs.hunclaimed i h1 h2
      · intro w' i h'
        by_cases hww : w = w'
        · subst hww
          rw [List.getElem?_set_eq_of_lt _ hwlt] at h'
          simp at h'
        · rw [List.getElem?_set_ne hww] at h'
          exact hs.hfetch w' i h'
      · intro w' h'
        by_cases hww : w = w'
        · subst hww
          rw [List.getElem?_set_eq_of_lt _ hwlt] at h'
          simp at h'
        · rw [List.getElem?_set_ne hww] at h'
          exact hs.hfin w' h'
    | finished => rw [wstep_finished f tasks s w hw]; exact hs

theorem fanInv_run (f : α → β) (tasks : List α) :
    ∀ (sched : List Nat) (s : FanState β), FanInv f tasks s →
      FanInv f tasks (fanRun f tasks sched s) := by
  intro sched
  induction sched with
  | nil => intro s hs; exact hs
  | cons w rest ih =>
    intro s hs
    exact ih (wstep f tasks s w) (fanInv_step f tasks s w hs)

theorem wstep_workers_length (f : α → β) (tasks : List α) (s : FanState β)
    (w : Nat) : (wstep f tasks s w).workers.length = s.workers.length := by
  cases hw : s.workers[w]? with
  | none => rw [wstep_none f tasks s w hw]
  | some ws =>
    cases ws with
    | atLoop =>
      by_cases hc : s.cursor < tasks.length
      · rw [wstep_atLoop_claim f tasks s w hw hc]; simp
      · rw [wstep_atLoop_done f tasks s w hw hc]; simp
    | fetching i0 => rw [wstep_fetching f tasks s w i0 hw]; simp
    | finished => rw [wstep_finished f tasks s w hw]

theorem fanRun_workers_length (f : α → β) (tasks : List α) :
    ∀ (sched : List Nat) (s : FanState β),
      (fanRun f tasks sched s).workers.length = s.workers.length := by
  intro sched
  induction sched with
  | nil => intro s; rfl
  | cons w rest ih =>
    intro s
    exact (ih (wstep f tasks s w)).trans (wstep_workers_length f tasks s w)

theorem fanRun_no_workers (f : α → β) (tasks : List α) :
    ∀ (sched : List Nat) (s : FanState β), s.workers = [] →
      fanRun f tasks sched s = s := by
  intro sched
  induction sched with
  | nil => intro s _; rfl
  | cons w rest ih =>
    intro s hs
    have hw : s.workers[w]? = none := by rw [hs]; rfl
    have hstep : wstep f tasks s w = s := wstep_none f tasks s w hw
    show fanRun f tasks rest (wstep f tasks s w) = s
    rw [hstep]
    exact ih s hs

/-- All workers having returned, the results array holds exactly the fetch
of every task, in task order. -/
theorem fanRun_results (f : α → β) (tasks : List α) (K : Nat)
    (sched : List Nat) (hK : 1 ≤ K)
    (hfin : ∀ ws ∈ (fanRun f tasks sched (fanInit β K tasks)).workers,
      ws = WState.finished) :
    (fanRun f tasks sched (fanInit β K tasks)).results =
      tasks.map (fun a => some (f a)) := by
  have hinv : FanInv f tasks (fanRun f tasks sched (fanInit β K tasks)) :=
    fanInv_run f tasks sched _ (fanInv_init f tasks K)
  set s := fanRun f tasks sched (fanInit β K tasks) with hsdef
  have hwlen : s.workers.length = min K tasks.length := by
    rw [hsdef, fanRun_workers_length]
    simp [fanInit]
  rcases Nat.eq_zero_or_pos tasks.length with hN | hN
  · have ht : tasks = [] := List.length_eq_zero.mp hN
    have h0 : s.results = [] :=
      List.length_eq_zero.mp (by rw [hinv.hlen, hN])
    rw [h0, ht]
    rfl
  · have hw0 : 0 < s.workers.length := by
      rw [hwlen]
      omega
    have hfin0 : s.workers[0]? = some WState.finished := by
      rw [List.getElem?_eq_getElem hw0]
      exact congrArg some (hfin _ (List.getElem_mem hw0))
    have hcurN : s.cursor = tasks.length := hinv.hfin 0 hfin0
    apply List.ext_getElem?
    intro i
    by_cases hi : i < tasks.length
    · rcases hinv.hclaimed i (by omega) with hst | ⟨w, hw⟩
      · rw [hst, List.getElem?_map, List.getElem?_eq_getElem hi]
        rfl
      · rcases List.getElem?_eq_some.mp hw with ⟨hlt, heq⟩
        have hmem : WState.fetching i ∈ s.workers :=
          heq ▸ List.getElem_mem hlt
        have := hfin _ hmem
        simp at this
    · have hL : s.results.length ≤ i := by
        rw [hinv.hlen]
        omega
      have hR : (tasks.map (fun a => some (f a))).length ≤ i := by
        rw [List.length_map]
        omega
      rw [List.getElem?_eq_none hL, List.getElem?_eq_none hR]

/-- C8: for every ordered task list and concurrency limit `K ≥ 1`, the
fan-out executor spawns exactly `min(K, N)` workers, and whichever order
the event loop drives them in, once all workers have returned the results
array has length `N` with `result[i]` the fetched value of `task[i]` for
every `i`; for `N = 0` it spawns zero workers and the run is a no-op
returning the empty array. -/
theorem fanOut_spawns_min_and_preserves_order (f : α → β) (tasks : List α)
    (K : Nat) (sched : List Nat) (hK : 1 ≤ K)
    (hfin : ∀ ws ∈ (fanRun f tasks sched (fanInit β K tasks)).workers,
      ws = WState.finished) :
    (fanInit β K tasks).workers.length = min K tasks.length ∧
    (fanRun f tasks sched (fanInit β K tasks)).results =
      tasks.map (fun a => some (f a)) ∧
    (tasks = [] →
      (fanInit β K tasks).workers = [] ∧
      fanRun f tasks sched (fanInit β K tasks) = fanInit β K tasks ∧
      (fanRun f tasks sched (fanInit β K tasks)).results = []) := by
  refine ⟨by simp [fanInit], fanRun_results f tasks K sched hK hfin, ?_⟩
  intro ht
  subst ht
  have hworkers : (fanInit β K ([] : List α)).workers = [] := by
    simp [fanInit]
  have hrun : fanRun f [] sched (fanInit β K []) = fanInit β K [] :=
    fanRun_no_workers f [] sched _ hworkers
  refine ⟨hworkers, hrun, ?_⟩
  rw [hrun]
  simp [fanInit]

/-! ### Concrete witnesses -/

/-- Witness for C1 at a concrete CLOSED breaker: two recent failures plus
the one being recorded reach the default threshold of 3 and open the
breaker. -/
theorem record_closed_opens_iff_window_count_witness :
    (record defaultCfg ⟨.CLOSED, [10, 20], 0, 15000⟩ 100 false 0).state =
      .OPEN :=
  (record_closed_opens_iff_window_count defaultCfg ⟨.CLOSED, [10, 20], 0, 15000⟩
    100 false 0 rfl).1.mpr (by decide)

/-- Witness for C2 at a concrete OPEN breaker (`nextAttemptAt = 2000`):
the check at `t = 500` is denied and the check at `t = 2000` is admitted
as a probe. -/
theorem open_admission_denied_then_probe_witness :
    (allowRequest ⟨.OPEN, [], 2000, 15000⟩ 500).1.allowed = false ∧
    (allowRequest ⟨.OPEN, [], 2000, 15000⟩ 2000).1.probe = true := by
  have h1 := open_admission_denied_then_probe ⟨.OPEN, [], 2000, 15000⟩
    500 0 0 rfl
  have h2 := open_admission_denied_then_probe ⟨.OPEN, [], 2000, 15000⟩
    2000 0 0 rfl
  constructor
  · rw [h1.1 (by decide)]
  · rw [h2.2.2 (by decide)]

/-- Witness for C3 at a concrete HALF_OPEN breaker: a successful probe
closes it and a failed probe doubles the cooldown plus jitter 7. -/
theorem halfOpen_probe_outcome_witness :
    (record defaultCfg ⟨.HALF_OPEN, [5], 0, 15000⟩ 10 true 7).state =
      .CLOSED ∧
    (record defaultCfg ⟨.HALF_OPEN, [5], 0, 15000⟩ 10 false 7).cooldownMs =
      min (15000 * 2) 120000 + 7 := by
  have h := halfOpen_probe_outcome defaultCfg ⟨.HALF_OPEN, [5], 0, 15000⟩
    10 7 rfl (by decide)
  exact ⟨h.1.1, h.2.2.1⟩

/-- Witness for amended C4 at the capped cooldown: a failed probe with
jitter 249 stays below `maxCooldown + 249`. -/
theorem cooldown_evolution_witness :
    (record defaultCfg ⟨.HALF_OPEN, [], 0, 120000⟩ 0 false 249).cooldownMs ≤
      120000 + 249 := by
  have h := cooldown_evolution defaultCfg ⟨.HALF_OPEN, [], 0, 120000⟩
    0 false 249 (by decide)
  exact (h.2.2 rfl).2.2.2

/-- Witness for amended C6: three straight 500s exhaust the budget carrying
the last error, and an immediate 404 fails with no backoff wait. -/
theorem postWithRetry_failure_modes_witness :
    (postWithRetry (fun _ => 500) (fun _ => 0) 200 3).1 =
      Except.error (some 500) ∧
    (postWithRetry (fun _ => 404) (fun _ => 0) 200 3).2 = [] := by
  have h1 := (postWithRetry_failure_modes (fun _ => 500) (fun _ => 0)
    200 3 0).1 (by omega) (fun i _ => le_refl 500)
  have h2 := (postWithRetry_failure_modes (fun _ => 404) (fun _ => 0)
    200 3 0).2 (by omega) (fun i hi => absurd hi (by omega))
    (by decide) (by decide)
  refine ⟨h1.1, ?_⟩
  rw [h2.2]
  rfl

/-- Witness for C7: statuses 503, 503, 200 with base 100 and jitter 10
succeed on attempt 2 after waits of 110 and 210 ms. -/
theorem retry_succeeds_on_third_attempt_witness :
    (postWithRetry (fun a => if a < 2 then 503 else 200) (fun _ => 10)
      100 3).1 = Except.ok 2 ∧
    (postWithRetry (fun a => if a < 2 then 503 else 200) (fun _ => 10)
      100 3).2 = [100 * 2 ^ 0 + 10, 100 * 2 ^ 1 + 10] := by
  have h := retry_succeeds_on_third_attempt
    (fun a => if a < 2 then 503 else 200) (fun _ => 10) 100
    (by decide) (by decide) (by decide)
    (fun _ => (by decide : (10 : Nat) < 50))
  exact ⟨h.1, h.2.1⟩

/-- Witness for C8: three tasks, two workers and a concrete completing
schedule produce the in-order results. -/
theorem fanOut_spawns_min_and_preserves_order_witness :
    (fanRun Nat.succ [10, 20, 30] [0, 1, 0, 0, 1, 1, 0, 0]
      (fanInit Nat 2 [10, 20, 30])).results =
      [some 11, some 21, some 31] := by
  have h := fanOut_spawns_min_and_preserves_order Nat.succ [10, 20, 30] 2
    [0, 1, 0, 0, 1, 1, 0, 0] (by decide) (by decide)
  rw [h.2.1]
  rfl

/-- Witness for C9: three admission checks on a concrete HALF_OPEN breaker
leave it untouched. -/
theorem halfOpen_admits_without_probe_witness :
    (allowTrace ⟨.HALF_OPEN, [], 0, 15000⟩ [1, 2, 3]).2 =
      (⟨.HALF_OPEN, [], 0, 15000⟩ : Breaker) :=
  (halfOpen_admits_without_probe ⟨.HALF_OPEN, [], 0, 15000⟩ [1, 2, 3] rfl).1

/-- Witness for C10: an admitted request hitting an immediate 404 is
answered 503. -/
theorem addEvent_nonretryable_reason_witness :
    (addEventHandler defaultCfg (Breaker.init defaultCfg) 0 0
      (fun _ => 404) (fun _ => 0) 200 3 0).1.status = 503 := by
  have h := addEvent_nonretryable_reason defaultCfg (Breaker.init defaultCfg)
    0 0 (fun _ => 404) (fun _ => 500) (fun _ => 0) 200 3 0
    (by decide) (by decide) (by decide) (by decide) (fun i _ => le_refl 500)
  exact h.1

end EventSystem
